import Mathlib

/-!
Verification of the multi-factor scoring-fusion and notification-deduplication
pipeline (expectation fusion, safety classification, mania sub-analyzers,
dedup state store).

Shallow embedding conventions:
* Python floats are modelled as `ℚ`; Python ints as `ℤ` or `ℕ`.
* `round(x, 1)` is modelled by `pyRound1` (round to the nearest tenth).
  Mathlib's `round` breaks exact ties upward while Python's float `round`
  breaks them to even; no statement below depends on a tie.
* Timestamps are rational numbers of seconds; the ISO-8601 round trip
  through `isoformat`/`fromisoformat` is the identity on instants.
* Python dicts used as string-keyed records become structures; dicts used
  as mutable maps (the notified map) become association lists with a
  dict-style upsert that preserves key uniqueness.
* Optional arguments / possibly-empty dicts become `Option`.
-/

/-- Model of Python `round(x, 1)`: round to the nearest multiple of 1/10. -/
def pyRound1 (x : ℚ) : ℚ := ((round (10 * x) : ℤ) : ℚ) / 10

theorem pyRound1_mono {x y : ℚ} (h : x ≤ y) : pyRound1 x ≤ pyRound1 y := by
  unfold pyRound1
  have hr : round (10 * x) ≤ round (10 * y) := by
    rw [round_eq, round_eq]
    exact Int.floor_le_floor (by linarith)
  have hq : ((round (10 * x) : ℤ) : ℚ) ≤ ((round (10 * y) : ℤ) : ℚ) := by
    exact_mod_cast hr
  linarith

theorem pyRound1_intCast (n : ℤ) : pyRound1 (n : ℚ) = n := by
  unfold pyRound1
  have h : (10 : ℚ) * (n : ℚ) = ((10 * n : ℤ) : ℚ) := by push_cast; ring
  rw [h, round_intCast]
  push_cast
  field_simp

theorem pyRound1_ge_of_ge {x : ℚ} {n : ℤ} (h : (n : ℚ) ≤ x) : (n : ℚ) ≤ pyRound1 x := by
  have := pyRound1_mono h
  rwa [pyRound1_intCast] at this

theorem pyRound1_le_of_le {x : ℚ} {n : ℤ} (h : x ≤ (n : ℚ)) : pyRound1 x ≤ (n : ℚ) := by
  have := pyRound1_mono h
  rwa [pyRound1_intCast] at this

/-!
## ExpectationCalculator (src/src/expectation.py)

`calculate(total_score, safety_result, mania_scores, trust_score,
sol_price_trend)`.  `safety_result or {}` / `mania_scores or {}` and the
`.get(key, default)` reads are modelled by `Option` inputs with the
documented defaults ("unknown", 0, "low").  The interpolated reasoning
strings are presentation-layer text and are not modelled.
-/

/-- The `risk_level` key of the `safety_result` dict (default "unknown"). -/
structure SafetyInput where
  risk_level : String

/-- The keys of the `mania_scores` dict read by `calculate`:
`mania_total` (default 0) and the nested `_mania_raw.bot.bot_risk`
(default "low"). -/
structure ManiaInput where
  mania_total : ℚ
  bot_risk : String

/-- Result record of `ExpectationCalculator.calculate` (the ordered
reasoning strings are not modelled). -/
structure ExpectationValue where
  heat_level : ℤ
  heat_label : String
  confidence : ℚ
  position_pct : ℚ
  position_label : String
  risk_reward : String

/-- Step 1: base heat from the primary score via five bands. -/
def baseHeat (total : ℚ) : ℤ :=
  if 75 ≤ total then 5
  else if 60 ≤ total then 4
  else if 45 ≤ total then 3
  else if 30 ≤ total then 2
  else 1

/-- Step 2: safety modifier (danger -2, warning -1, safe/other 0). -/
def safetyModifier (risk : String) : ℤ :=
  if risk = "danger" then -2
  else if risk = "warning" then -1
  else 0

/-- Step 3: mania modifier (≥70 → +1, ≤20 → -1, and -1 more on high bot risk). -/
def maniaModifier (maniaTotal : ℚ) (botRisk : String) : ℤ :=
  (if 70 ≤ maniaTotal then 1 else if maniaTotal ≤ 20 then -1 else 0)
    + (if botRisk = "high" then -1 else 0)

/-- Step 4: trust modifier; a missing trust score contributes 0. -/
def trustModifier : Option ℚ → ℤ
  | none => 0
  | some ts => if 70 ≤ ts then 1 else if ts ≤ 30 then -1 else 0

/-- Step 5: market modifier (bullish +1, bearish -1, anything else 0). -/
def marketModifier (trend : Option String) : ℤ :=
  if trend = some "bullish" then 1
  else if trend = some "bearish" then -1
  else 0

/-- POSITION_TABLE percentage column (`.get` falls back to the entry for 1). -/
def positionPct (heat : ℤ) : ℚ :=
  if heat = 5 then 10
  else if heat = 4 then 5
  else if heat = 3 then 2
  else if heat = 2 then 1/2
  else 0

/-- POSITION_TABLE label column (`.get` falls back to the entry for 1). -/
def positionLabel (heat : ℤ) : String :=
  if heat = 5 then "強め（10%）"
  else if heat = 4 then "標準（5%）"
  else if heat = 3 then "少額（2%）"
  else if heat = 2 then "最小（0.5%）"
  else "見送り"

/-- heat_labels lookup. -/
def heatLabel (heat : ℤ) : String :=
  if heat = 5 then "🔥🔥🔥🔥🔥 超高"
  else if heat = 4 then "🔥🔥🔥🔥 高"
  else if heat = 3 then "🔥🔥🔥 中"
  else if heat = 2 then "🔥🔥 低"
  else "🔥 様子見"

/-- Confidence: population variance of the factor vector, scaled, clamped
to [10, 100], then rounded to one decimal. -/
def confidenceOf (factors : List ℚ) : ℚ :=
  let avg := factors.sum / (factors.length : ℚ)
  let variance := (factors.map (fun f => (f - avg) ^ 2)).sum / (factors.length : ℚ)
  pyRound1 (max 10 (min 100 (100 - variance * 15)))

/-- risk/reward decision table keyed on (final heat, risk level). -/
def riskReward (finalHeat : ℤ) (risk : String) : String :=
  if 4 ≤ finalHeat ∧ (risk = "safe" ∨ risk = "unknown") then "高リターン期待・リスク管理済み"
  else if 4 ≤ finalHeat ∧ risk = "warning" then "ハイリスク・ハイリターン"
  else if finalHeat ≤ 2 then "ローリターン・リスク高め"
  else "標準的なリスク・リターン"

/-- `ExpectationCalculator.calculate`. -/
def calculate (total : ℚ) (safety : Option SafetyInput) (mania : Option ManiaInput)
    (trust : Option ℚ) (trend : Option String) : ExpectationValue :=
  let risk := (safety.map (·.risk_level)).getD "unknown"
  let sMod := safetyModifier risk
  let maniaTotal := (mania.map (·.mania_total)).getD 0
  let botRisk := (mania.map (·.bot_risk)).getD "low"
  let mMod := maniaModifier maniaTotal botRisk
  let tMod := trustModifier trust
  let kMod := marketModifier trend
  let finalHeat := max 1 (min 5 (baseHeat total + sMod + mMod + tMod + kMod))
  let confidence := confidenceOf
    [((baseHeat total : ℤ) : ℚ), ((3 + sMod : ℤ) : ℚ), ((3 + mMod : ℤ) : ℚ), ((3 + tMod : ℤ) : ℚ)]
  { heat_level := finalHeat
    heat_label := heatLabel finalHeat
    confidence := confidence
    position_pct := positionPct finalHeat
    position_label := positionLabel finalHeat
    risk_reward := riskReward finalHeat risk }

theorem confidenceOf_bounds (factors : List ℚ) :
    10 ≤ confidenceOf factors ∧ confidenceOf factors ≤ 100 := by
  unfold confidenceOf
  constructor
  · have h : ((10 : ℤ) : ℚ) ≤ max 10 (min 100 (100 - (factors.map (fun f => (f - factors.sum / (factors.length : ℚ)) ^ 2)).sum / (factors.length : ℚ) * 15)) := by
      have := le_max_left (10 : ℚ) (min 100 (100 - (factors.map (fun f => (f - factors.sum / (factors.length : ℚ)) ^ 2)).sum / (factors.length : ℚ) * 15))
      exact_mod_cast this
    have := pyRound1_ge_of_ge h
    simpa using this
  · have h : max 10 (min 100 (100 - (factors.map (fun f => (f - factors.sum / (factors.length : ℚ)) ^ 2)).sum / (factors.length : ℚ) * 15)) ≤ ((100 : ℤ) : ℚ) := by
      have h1 : min (100 : ℚ) (100 - (factors.map (fun f => (f - factors.sum / (factors.length : ℚ)) ^ 2)).sum / (factors.length : ℚ) * 15) ≤ 100 := min_le_left _ _
      have := max_le (by norm_num : (10 : ℚ) ≤ 100) h1
      simpa using this
    have := pyRound1_le_of_le h
    simpa using this

/-- C1: for every input (any primary score, any safety result, any mania
scores, any optional trust score and market-trend label),
`ExpectationCalculator.calculate` returns a heat_level in {1,…,5} and a
confidence in [10,100]; it is a total Lean function (so it never raises),
and a missing trust score or market trend contributes a zero modifier. -/
theorem calculate_total_bounds (total : ℚ) (safety : Option SafetyInput)
    (mania : Option ManiaInput) (trust : Option ℚ) (trend : Option String) :
    1 ≤ (calculate total safety mania trust trend).heat_level ∧
    (calculate total safety mania trust trend).heat_level ≤ 5 ∧
    10 ≤ (calculate total safety mania trust trend).confidence ∧
    (calculate total safety mania trust trend).confidence ≤ 100 ∧
    (trust = none → trustModifier trust = 0) ∧
    (trend = none → marketModifier trend = 0) := by
  have hheat : (calculate total safety mania trust trend).heat_level =
      max 1 (min 5 (baseHeat total
        + safetyModifier ((safety.map (·.risk_level)).getD "unknown")
        + maniaModifier ((mania.map (·.mania_total)).getD 0) ((mania.map (·.bot_risk)).getD "low")
        + trustModifier trust + marketModifier trend)) := rfl
  have hconf : (calculate total safety mania trust trend).confidence =
      confidenceOf [((baseHeat total : ℤ) : ℚ),
        ((3 + safetyModifier ((safety.map (·.risk_level)).getD "unknown") : ℤ) : ℚ),
        ((3 + maniaModifier ((mania.map (·.mania_total)).getD 0) ((mania.map (·.bot_risk)).getD "low") : ℤ) : ℚ),
        ((3 + trustModifier trust : ℤ) : ℚ)] := rfl
  refine ⟨?_, ?_, ?_, ?_, ?_, ?_⟩
  · rw [hheat]; exact le_max_left _ _
  · rw [hheat]; exact max_le (by norm_num) (le_trans (min_le_left _ _) (by norm_num))
  · rw [hconf]; exact (confidenceOf_bounds _).1
  · rw [hconf]; exact (confidenceOf_bounds _).2
  · intro h; rw [h]; rfl
  · intro h; rw [h]; rfl

/-- Witness for C1 at a concrete input, discharging the two hypotheses of
the conditional conjuncts. -/
theorem calculate_total_bounds_witness :
    1 ≤ (calculate 55 none none none none).heat_level ∧
    (calculate 55 none none none none).heat_level ≤ 5 ∧
    10 ≤ (calculate 55 none none none none).confidence ∧
    (calculate 55 none none none none).confidence ≤ 100 ∧
    trustModifier none = 0 ∧ marketModifier none = 0 := by
  have h := calculate_total_bounds 55 none none none none
  exact ⟨h.1, h.2.1, h.2.2.1, h.2.2.2.1, h.2.2.2.2.1 rfl, h.2.2.2.2.2 rfl⟩

/-- C9: the two concrete fusion scenarios.  Scenario A: primary 80, safety
"safe", mania_total 75, no trust/trend → base heat 5, safety modifier 0,
mania modifier +1, final heat clamped to 5, position 10% labelled
"強め（10%）".  Scenario B: primary 50, safety "danger", mania_total 10 →
base heat 3, safety modifier -2, mania modifier -1, final heat 1,
position 0% labelled "見送り". -/
theorem calculate_concrete_scenarios :
    baseHeat 80 = 5 ∧ safetyModifier "safe" = 0 ∧ maniaModifier 75 "low" = 1 ∧
    (calculate 80 (some ⟨"safe"⟩) (some ⟨75, "low"⟩) none none).heat_level = 5 ∧
    (calculate 80 (some ⟨"safe"⟩) (some ⟨75, "low"⟩) none none).position_pct = 10 ∧
    (calculate 80 (some ⟨"safe"⟩) (some ⟨75, "low"⟩) none none).position_label = "強め（10%）" ∧
    baseHeat 50 = 3 ∧ safetyModifier "danger" = -2 ∧ maniaModifier 10 "low" = -1 ∧
    (calculate 50 (some ⟨"danger"⟩) (some ⟨10, "low"⟩) none none).heat_level = 1 ∧
    (calculate 50 (some ⟨"danger"⟩) (some ⟨10, "low"⟩) none none).position_pct = 0 ∧
    (calculate 50 (some ⟨"danger"⟩) (some ⟨10, "low"⟩) none none).position_label = "見送り" := by
  refine ⟨by decide, by decide, by decide, ?_, ?_, ?_, by decide, by decide, by decide, ?_, ?_, ?_⟩ <;> decide

/-!
## SafetyChecker (src/src/safety.py)

`check` folds a RugCheck report into `{is_safe, risk_level, warnings, ...}`.
An unavailable or empty report (Python falsy `{}` — a report with no
findings at all) leaves the initial defaults in place.  Warning strings
carry a severity emoji prefix ("🔴 " / "🟡 "); we model each warning as a
severity tag paired with the message text (the interpolated numbers in
messages are presentation detail and are dropped).  `"mint" in name.lower()`
is modelled by `strContains (pyLower name) "mint"`.
-/

/-- One entry of the RugCheck `risks` list: `{name, level, description}`. -/
structure RugRisk where
  name : String
  level : String
  description : String

/-- One entry of the RugCheck `topHolders` list (only `pct` is read). -/
structure RugTopHolder where
  pct : ℚ

/-- The fields of the RugCheck report read by `check`. -/
structure RugReport where
  score : ℚ
  risks : List RugRisk
  topHolders : List RugTopHolder

/-- Severity prefix of a warning string: "🔴 " or "🟡 ". -/
inductive Sev where
  | red
  | yellow
deriving DecidableEq, BEq, Repr

/-- Result dict of `SafetyChecker.check`. -/
structure SafetyResult where
  is_safe : Bool
  risk_level : String
  warnings : List (Sev × String)
  rugcheck_score : Option ℚ
  mint_authority : Option String
  lp_locked : Option Bool
  top_holders_pct : Option ℚ

/-- Python `pat in s` (substring containment) over the character lists. -/
def strContains (s pat : String) : Bool :=
  s.data.tails.any (fun t => pat.data.isPrefixOf t)

/-- Python `s.lower()` (basic-latin lowering, like `Char.toLower`). -/
def pyLower (s : String) : String :=
  ⟨s.data.map Char.toLower⟩

/-- Per-finding severity classification: danger/critical → 🔴, warn → 🟡,
anything else ignored. -/
def riskWarning (k : RugRisk) : Option (Sev × String) :=
  if k.level = "danger" ∨ k.level = "critical" then
    some (Sev.red, k.name ++ ": " ++ k.description)
  else if k.level = "warn" then
    some (Sev.yellow, k.name ++ ": " ++ k.description)
  else none

/-- Number of 🔴-prefixed warnings. -/
def dangerCount (ws : List (Sev × String)) : ℕ :=
  ws.countP (fun w => w.1 == Sev.red)

/-- Number of 🟡-prefixed warnings. -/
def warnCount (ws : List (Sev × String)) : ℕ :=
  ws.countP (fun w => w.1 == Sev.yellow)

/-- Final risk-level decision of `check` from the two warning counts,
returning (risk_level, is_safe). -/
def classifyRisk (d w : ℕ) : String × Bool :=
  if 2 ≤ d then ("danger", false)
  else if 1 ≤ d then ("warning", true)
  else if 2 ≤ w then ("warning", true)
  else ("safe", true)

/-- `SafetyChecker.check`, given the fetched RugCheck report (`none` models
the falsy `{}` obtained on fetch failure / empty response). -/
def safetyCheck : Option RugReport → SafetyResult
  | none =>
    { is_safe := true, risk_level := "unknown", warnings := [],
      rugcheck_score := none, mint_authority := none,
      lp_locked := none, top_holders_pct := none }
  | some r =>
    let w1 := r.risks.filterMap riskWarning
    let mintActive := r.risks.any (fun k => strContains (pyLower k.name) "mint")
    let w2 := w1 ++ (if mintActive then [(Sev.red, "ミント権限が放棄されていない")] else [])
    let lpLocked := !(r.risks.any (fun k =>
      strContains (pyLower k.name) "lp" && (k.level == "danger" || k.level == "critical")))
    let w3 := w2 ++ (if lpLocked then [] else [(Sev.red, "LP未ロック（ラグプルリスク）")])
    let totalPct := ((r.topHolders.take 10).map (·.pct)).sum
    let w4 := w3 ++
      (if r.topHolders.isEmpty then []
       else if 50 < totalPct then [(Sev.red, "上位10ホルダー保有（集中リスク）")]
       else if 30 < totalPct then [(Sev.yellow, "上位10ホルダー保有")]
       else [])
    let cls := classifyRisk (dangerCount w4) (warnCount w4)
    { is_safe := cls.2, risk_level := cls.1, warnings := w4,
      rugcheck_score := some r.score,
      mint_authority := if mintActive then some "active" else none,
      lp_locked := some lpLocked,
      top_holders_pct := if r.topHolders.isEmpty then none else some (pyRound1 totalPct) }

theorem classifyRisk_spec (d w : ℕ) :
    (2 ≤ d → classifyRisk d w = ("danger", false)) ∧
    (d = 1 → classifyRisk d w = ("warning", true)) ∧
    (d = 0 → 2 ≤ w → classifyRisk d w = ("warning", true)) ∧
    (d = 0 → w ≤ 1 → classifyRisk d w = ("safe", true)) := by
  unfold classifyRisk
  refine ⟨?_, ?_, ?_, ?_⟩ <;> intros <;> split_ifs <;> first | rfl | omega

/-- C4: the final risk level is "danger" (with is_safe false) when the
accumulated warnings hold at least two danger-level entries, "warning" on
exactly one danger-level entry or at least two warning-level entries with
no danger-level entry, "safe" otherwise; an empty raw report (no findings
at all) yields "unknown". -/
theorem safetyCheck_risk_level_spec (rep : Option RugReport) :
    (rep = none → (safetyCheck rep).risk_level = "unknown") ∧
    (∀ r, rep = some r →
      (2 ≤ dangerCount (safetyCheck rep).warnings →
        (safetyCheck rep).risk_level = "danger" ∧ (safetyCheck rep).is_safe = false) ∧
      (dangerCount (safetyCheck rep).warnings = 1 →
        (safetyCheck rep).risk_level = "warning") ∧
      (dangerCount (safetyCheck rep).warnings = 0 →
        2 ≤ warnCount (safetyCheck rep).warnings →
        (safetyCheck rep).risk_level = "warning") ∧
      (dangerCount (safetyCheck rep).warnings = 0 →
        warnCount (safetyCheck rep).warnings ≤ 1 →
        (safetyCheck rep).risk_level = "safe")) := by
  constructor
  · intro h; subst h; rfl
  · intro r h; subst h
    have hlevel : (safetyCheck (some r)).risk_level =
        (classifyRisk (dangerCount (safetyCheck (some r)).warnings)
          (warnCount (safetyCheck (some r)).warnings)).1 := rfl
    have hsafe : (safetyCheck (some r)).is_safe =
        (classifyRisk (dangerCount (safetyCheck (some r)).warnings)
          (warnCount (safetyCheck (some r)).warnings)).2 := rfl
    have hs := classifyRisk_spec (dangerCount (safetyCheck (some r)).warnings)
      (warnCount (safetyCheck (some r)).warnings)
    refine ⟨?_, ?_, ?_, ?_⟩
    · intro hd
      rw [hlevel, hsafe, hs.1 hd]
      exact ⟨rfl, rfl⟩
    · intro hd
      rw [hlevel, hs.2.1 hd]
    · intro hd hw
      rw [hlevel, hs.2.2.1 hd hw]
    · intro hd hw
      rw [hlevel, hs.2.2.2 hd hw]

/-- Witness for C4: the empty report gives "unknown"; a report with two
danger findings gives "danger" and is_safe = false. -/
theorem safetyCheck_risk_level_spec_witness :
    (safetyCheck none).risk_level = "unknown" ∧
    (safetyCheck (some ⟨1, [⟨"lp unlocked", "danger", "x"⟩, ⟨"mint auth", "danger", "y"⟩], []⟩)).risk_level = "danger" ∧
    (safetyCheck (some ⟨1, [⟨"lp unlocked", "danger", "x"⟩, ⟨"mint auth", "danger", "y"⟩], []⟩)).is_safe = false := by
  have h1 := (safetyCheck_risk_level_spec none).1 rfl
  have h2 := ((safetyCheck_risk_level_spec
    (some ⟨1, [⟨"lp unlocked", "danger", "x"⟩, ⟨"mint auth", "danger", "y"⟩], []⟩)).2 _ rfl).1
    (by decide)
  exact ⟨h1, h2.1, h2.2⟩

/-!
## Mania scoring (src/src/mania.py)

`BotDetector.analyze` reads `{followers, following, tweets, likes}` (all
non-negative ints; `following` defaults to 1 and a stored 0 is coerced to 1
by `or 1`).  The exact rational ratio comparisons `followers/following >
100` and `< 0.5`, and `likes/tweets < 1`, are rewritten as the equivalent
integer comparisons.  `len(str(n)) - len(str(n).rstrip('0'))` (the count of
trailing zero decimal digits) is `trailingZeros`, written with a
structural fuel argument so it evaluates in the kernel; for the `n = 0`
edge (unreachable under the `followers > 500` guard) it returns 0.
The human-readable indicator strings are presentation detail, not modelled.
-/

/-- The Twitter profile fields read by `BotDetector.analyze`. -/
structure SocialProfile where
  followers : ℕ
  following : ℕ
  tweets : ℕ
  likes : ℕ

/-- `twitter_raw.get("following", 1) or 1`: a missing or zero following
count becomes 1. -/
def effFollowing (following : ℕ) : ℕ :=
  if following = 0 then 1 else following

/-- Count of trailing zero digits of the decimal representation
(`len(str(n)) - len(str(n).rstrip('0'))`), for n ≥ 1. -/
def trailingZerosAux : ℕ → ℕ → ℕ
  | 0, _ => 0
  | _, 0 => 0
  | fuel + 1, n + 1 =>
    if (n + 1) % 10 = 0 then trailingZerosAux fuel ((n + 1) / 10) + 1 else 0

/-- Trailing zero digits of `n` (fuel `n` suffices since `n` has at most
`n` digits). -/
def trailingZeros (n : ℕ) : ℕ := trailingZerosAux n n

/-- Result dict of `BotDetector.analyze` (indicator strings dropped). -/
structure BotResult where
  bot_risk : String
  bot_score : ℕ

/-- Signal 1: follower/following ratio.  The `ratio > 100 and followers >
10000` branch is an explicit no-op (`pass`); `ratio < 0.5 and followers >
1000` adds 25.  `ratio > 100 ↔ followers > 100*following` and
`ratio < 0.5 ↔ 2*followers < following` for the positive `effFollowing`. -/
def botSignalRatio (followers following : ℕ) : ℕ :=
  if 100 * effFollowing following < followers ∧ 10000 < followers then 0
  else if 2 * followers < effFollowing following ∧ 1000 < followers then 25
  else 0

/-- Signal 2: followers > 5000 with fewer than 10 tweets adds 30. -/
def botSignalTweets (followers tweets : ℕ) : ℕ :=
  if 5000 < followers ∧ tweets < 10 then 30 else 0

/-- Signal 3: for tweets > 0, average likes per tweet below 1
(`likes < tweets`) with followers > 1000 adds 20. -/
def botSignalEngagement (followers tweets likes : ℕ) : ℕ :=
  if 0 < tweets ∧ 1000 < followers ∧ likes < tweets then 20 else 0

/-- Signal 4: followers > 500 with at least 3 trailing zero digits adds 15. -/
def botSignalRound (followers : ℕ) : ℕ :=
  if 500 < followers ∧ 3 ≤ trailingZeros followers then 15 else 0

/-- The accumulated penalty before the final `min(100, ·)` cap. -/
def botScoreRaw (p : SocialProfile) : ℕ :=
  botSignalRatio p.followers p.following + botSignalTweets p.followers p.tweets
    + botSignalEngagement p.followers p.tweets p.likes + botSignalRound p.followers

/-- `BotDetector.analyze` (zero followers short-circuits to the default). -/
def botAnalyze (p : SocialProfile) : BotResult :=
  if p.followers = 0 then { bot_risk := "low", bot_score := 0 }
  else
    { bot_risk :=
        if 50 ≤ botScoreRaw p then "high"
        else if 25 ≤ botScoreRaw p then "medium"
        else "low"
      bot_score := min 100 (botScoreRaw p) }

/-- C5 counterexample: the bot score is NOT monotonically non-decreasing
when a signal worsens.  Raising followers from 1000 to 1001 (other inputs
fixed) drops the score from 15 to 0 (the round-number +15 disappears), and
dropping the tweet count from 10 to 5 (followers 2000, likes 5) drops the
score from 35 to 15 (the engagement guard `likes/tweets < 1` stops firing). -/
theorem botAnalyze_mono_counterexample :
    (botAnalyze ⟨1000, 1, 100, 1000⟩).bot_score = 15 ∧
    (botAnalyze ⟨1001, 1, 100, 1000⟩).bot_score = 0 ∧
    (botAnalyze ⟨1001, 1, 100, 1000⟩).bot_score < (botAnalyze ⟨1000, 1, 100, 1000⟩).bot_score ∧
    (botAnalyze ⟨2000, 1, 10, 5⟩).bot_score = 35 ∧
    (botAnalyze ⟨2000, 1, 5, 5⟩).bot_score = 15 ∧
    (botAnalyze ⟨2000, 1, 5, 5⟩).bot_score < (botAnalyze ⟨2000, 1, 10, 5⟩).bot_score := by
  refine ⟨?_, ?_, ?_, ?_, ?_, ?_⟩ <;> decide

theorem effFollowing_mono {fo fo' : ℕ} (h : fo ≤ fo') : effFollowing fo ≤ effFollowing fo' := by
  unfold effFollowing
  split_ifs <;> omega

theorem botSignalRatio_mono (f : ℕ) {fo fo' : ℕ} (h : fo ≤ fo') :
    botSignalRatio f fo ≤ botSignalRatio f fo' := by
  have he := effFollowing_mono h
  unfold botSignalRatio
  split_ifs <;> omega

theorem botSignalEngagement_mono (f t : ℕ) {l l' : ℕ} (h : l' ≤ l) :
    botSignalEngagement f t l ≤ botSignalEngagement f t l' := by
  unfold botSignalEngagement
  split_ifs <;> omega

/-- C5 (amended): the bot score is in [0, 100], and it is monotonically
non-decreasing as the following count rises or the like count falls while
the other inputs are held fixed.  (It is not monotone in followers or
tweet count — see the counterexample.) -/
theorem botAnalyze_bounds_mono (p : SocialProfile) (fo l : ℕ)
    (hfo : p.following ≤ fo) (hl : l ≤ p.likes) :
    (botAnalyze p).bot_score ≤ 100 ∧
    (botAnalyze p).bot_score ≤ (botAnalyze ⟨p.followers, fo, p.tweets, l⟩).bot_score := by
  have hraw : botScoreRaw p ≤ botScoreRaw ⟨p.followers, fo, p.tweets, l⟩ := by
    unfold botScoreRaw
    dsimp only
    have h1 := botSignalRatio_mono p.followers hfo
    have h2 := botSignalEngagement_mono p.followers p.tweets hl
    omega
  by_cases h : p.followers = 0
  · constructor
    · simp [botAnalyze, h]
    · simp only [botAnalyze, h, if_pos]
      exact Nat.zero_le _
  · have hL : (botAnalyze p).bot_score = min 100 (botScoreRaw p) := by
      simp [botAnalyze, h]
    have hR : (botAnalyze ⟨p.followers, fo, p.tweets, l⟩).bot_score =
        min 100 (botScoreRaw ⟨p.followers, fo, p.tweets, l⟩) := by
      simp [botAnalyze, h]
    refine ⟨?_, ?_⟩
    · rw [hL]; exact min_le_left _ _
    · rw [hL, hR]
      exact min_le_min (le_refl 100) hraw

/-- Witness for C5 (amended) at a concrete input. -/
theorem botAnalyze_bounds_mono_witness :
    (botAnalyze ⟨2000, 1, 10, 5⟩).bot_score ≤ 100 ∧
    (botAnalyze ⟨2000, 1, 10, 5⟩).bot_score ≤ (botAnalyze ⟨2000, 3, 10, 2⟩).bot_score := by
  have h := botAnalyze_bounds_mono ⟨2000, 1, 10, 5⟩ 3 2 (by decide) (by decide)
  exact h

/-!
## SmartMoneyAnalyzer (src/src/mania.py)

`analyze` works on the fetched holder list (the external fetch, which
degrades to `[]` on failure, is the input here).  `sorted(balances,
reverse=True)` is `sortDescQ` (a stable merge sort; only the head is
consumed).  The computed-but-unused `top5_pct` is omitted.
-/

/-- One holder entry `{owner, amount}` of the fetched holder list. -/
structure HolderEntry where
  owner : String
  amount : ℚ

/-- Result dict of `SmartMoneyAnalyzer.analyze`. -/
structure SmartMoneyResult where
  smart_money_score : ℕ
  smart_money_count : ℕ
  dev_wallet_risk : String
  holder_quality : ℕ
deriving DecidableEq, Repr

/-- `KNOWN_SMART_WALLETS` is empty in the source. -/
def KNOWN_SMART_WALLETS : List String := []

/-- Python `sorted(l, reverse=True)` on rationals. -/
def sortDescQ (l : List ℚ) : List ℚ :=
  l.mergeSort (fun a b => decide (b ≤ a))

/-- The five bucket thresholds of `analyze`, on the top-1 share as a
fraction of the sampled total. -/
def holderQualityBuckets (top1 : ℚ) : ℕ :=
  if top1 < 1/10 then 90
  else if top1 < 2/10 then 70
  else if top1 < 3/10 then 50
  else if top1 < 5/10 then 30
  else 10

/-- The holder-quality branch of `analyze`: runs only when the sampled
total is positive AND the sample has more than one holder, else 0. -/
def holderQualityOf (top : List HolderEntry) : ℕ :=
  if 0 < (top.map (·.amount)).sum ∧ 1 < top.length then
    holderQualityBuckets
      ((sortDescQ (top.map (·.amount))).headD 0 / (top.map (·.amount)).sum)
  else 0

/-- `SmartMoneyAnalyzer.analyze` on the fetched holder list (empty list =
missing/failed fetch). -/
def smartMoneyAnalyze (holders : List HolderEntry) : SmartMoneyResult :=
  if holders.isEmpty then
    { smart_money_score := 0, smart_money_count := 0,
      dev_wallet_risk := "unknown", holder_quality := 0 }
  else
    let top := holders.take 20
    let total := (top.map (·.amount)).sum
    let smartCount := top.countP (fun h => KNOWN_SMART_WALLETS.contains h.owner)
    let devRisk :=
      if 0 < total ∧ top.any (fun h => decide (30 < h.amount / total * 100)) then "high"
      else "unknown"
    { smart_money_score := min 100 (smartCount * 25), smart_money_count := smartCount,
      dev_wallet_risk := devRisk, holder_quality := holderQualityOf top }

/-- C8: an empty or missing holder set yields the all-zero defaults
(smart_money_score 0, smart_money_count 0, holder_quality 0,
dev_wallet_risk "unknown") — `analyze` is a total function, it does not
fail. -/
theorem smartMoneyAnalyze_empty :
    smartMoneyAnalyze [] =
      { smart_money_score := 0, smart_money_count := 0,
        dev_wallet_risk := "unknown", holder_quality := 0 } := rfl

/-- Modelled from the spec's words (refinement comparison only): the
five-bucket step function on the top-1-holder share of the sampled total,
in percent: <10 → 90, <20 → 70, <30 → 50, <50 → 30, else 10. -/
def holderQualityStep (sharePct : ℚ) : ℕ :=
  if sharePct < 10 then 90
  else if sharePct < 20 then 70
  else if sharePct < 30 then 50
  else if sharePct < 50 then 30
  else 10

/-- C7 counterexample: a non-empty sampled holder set with positive total
balance but a single holder gets holder_quality 0, while the claimed step
function gives 10 for a 100% top-1 share. -/
theorem smartMoneyAnalyze_single_holder_counterexample :
    (smartMoneyAnalyze [⟨"a", 5⟩]).holder_quality = 0 ∧
    holderQualityStep (5 / 5 * 100) = 10 ∧
    (smartMoneyAnalyze [⟨"a", 5⟩]).holder_quality ≠ holderQualityStep (5 / 5 * 100) := by
  have h0 : (smartMoneyAnalyze [⟨"a", 5⟩]).holder_quality = 0 := by
    show holderQualityOf [⟨"a", 5⟩] = 0
    norm_num [holderQualityOf]
  have h10 : holderQualityStep (5 / 5 * 100) = 10 := by
    norm_num [holderQualityStep]
  exact ⟨h0, h10, by rw [h0, h10]; omega⟩

theorem smartMoneyAnalyze_holder_quality_eq (holders : List HolderEntry) :
    (smartMoneyAnalyze holders).holder_quality = holderQualityOf (holders.take 20) := by
  cases holders <;> rfl

theorem holderQualityBuckets_eq_step (t : ℚ) :
    holderQualityBuckets t = holderQualityStep (t * 100) := by
  unfold holderQualityBuckets holderQualityStep
  split_ifs <;> first | rfl | (exfalso; linarith)

/-- C7 (amended): for every sampled holder set (top ≤20) with positive
total balance and AT LEAST TWO sampled holders, the holder-quality score
is the five-bucket step function of the top-1-holder share (in percent) of
the sampled total; with fewer than two sampled holders it is 0. -/
theorem smartMoneyAnalyze_holder_quality_spec (holders : List HolderEntry)
    (h2 : 1 < (holders.take 20).length)
    (hpos : 0 < ((holders.take 20).map (·.amount)).sum) :
    (smartMoneyAnalyze holders).holder_quality =
      holderQualityStep
        ((sortDescQ ((holders.take 20).map (·.amount))).headD 0
          / ((holders.take 20).map (·.amount)).sum * 100) := by
  rw [smartMoneyAnalyze_holder_quality_eq]
  unfold holderQualityOf
  rw [if_pos ⟨hpos, h2⟩]
  exact holderQualityBuckets_eq_step _

/-- Witness for C7 (amended) at a concrete two-holder input. -/
theorem smartMoneyAnalyze_holder_quality_spec_witness :
    (smartMoneyAnalyze [⟨"a", 3⟩, ⟨"b", 1⟩]).holder_quality =
      holderQualityStep
        ((sortDescQ ((([⟨"a", 3⟩, ⟨"b", (1 : ℚ)⟩] : List HolderEntry).take 20).map (·.amount))).headD 0
          / ((([⟨"a", 3⟩, ⟨"b", (1 : ℚ)⟩] : List HolderEntry).take 20).map (·.amount)).sum * 100) :=
  smartMoneyAnalyze_holder_quality_spec [⟨"a", 3⟩, ⟨"b", 1⟩] (by norm_num) (by norm_num)

/-!
## ManiaScorer.enhance_scores (src/src/mania.py) and run_cycle Step 3
(src/main.py lines 142-152)

`enhance_scores` combines the three analyzer outputs into the mania score
dict.  `SocialVelocityAnalyzer` (whose score mixes `log10` with wall-clock
age and is fetched per candidate) enters here only through its
`velocity_score` output, so it is a parameter.  In `run_cycle`, each top
candidate's `total_score` is re-blended with its `mania_total`
(`ms.get("mania_total", 0)` — the per-candidate enhancement output, the
parameter `em` below) and the list is re-sorted with Python's stable
`list.sort(key=..., reverse=True)`, modelled by a stable merge sort on the
reversed comparison.
-/

/-- The mania score dict built by `enhance_scores` (raw payload `_mania_raw`
is carried as the bot risk string consumed downstream). -/
structure ManiaScores where
  smart_money : ℕ
  holder_quality : ℕ
  social_velocity : ℚ
  bot_penalty : ℚ
  mania_total : ℚ
  raw_bot_risk : String

/-- `ManiaScorer.enhance_scores`, given the smart-money result, the social
velocity score and the bot-detector result for one candidate. -/
def enhanceScores (smR : SmartMoneyResult) (velocityScore : ℚ) (botR : BotResult) :
    ManiaScores :=
  let botPenalty := -((botR.bot_score : ℚ) * (3/10))
  let maniaTotal := (smR.smart_money_score : ℚ) * (2/10)
    + (smR.holder_quality : ℚ) * (3/10)
    + velocityScore * (3/10)
    + max 0 (50 + botPenalty) * (2/10)
  { smart_money := smR.smart_money_score
    holder_quality := smR.holder_quality
    social_velocity := velocityScore
    bot_penalty := botPenalty
    mania_total := pyRound1 maniaTotal
    raw_bot_risk := botR.bot_risk }

/-- The candidate record (`SolanaProject` from the scanner collaborator);
fields as consumed by the core (spec §3 TokenCandidate identity and
metrics). -/
structure SolanaProject where
  token_address : String
  symbol : String
  name : String
  total_score : ℚ
  liquidity_usd : ℚ
  volume_24h_usd : ℚ

/-- Step 3 score update for one candidate:
`p.total_score = round(p.total_score * 0.8 + mt * 0.2, 1)` where `mt` is
the candidate's `mania_total` (the function `em`). -/
def updateManiaScore (em : SolanaProject → ℚ) (p : SolanaProject) : SolanaProject :=
  { p with total_score := pyRound1 (p.total_score * (8/10) + em p * (2/10)) }

/-- `top.sort(key=lambda x: x.total_score, reverse=True)`: Python's stable
sort, descending on score. -/
def sortByScoreDesc (l : List SolanaProject) : List SolanaProject :=
  l.mergeSort (fun a b => decide (b.total_score ≤ a.total_score))

/-- Step 3 of `run_cycle`: blend each candidate's mania total into its
score, then stable-sort descending. -/
def runStep3 (em : SolanaProject → ℚ) (l : List SolanaProject) : List SolanaProject :=
  sortByScoreDesc (l.map (updateManiaScore em))

/-- C3 counterexample: the stored `mania_total` is the one-decimal rounding
of the composite, not the composite itself.  With all analyzer scores 0
except `social_velocity = 0.1` and `bot_score = 0`, the claimed formula
gives 10.03 but the code stores 10.0. -/
theorem enhanceScores_rounding_counterexample :
    (enhanceScores ⟨0, 0, "unknown", 0⟩ (1/10) ⟨"low", 0⟩).mania_total = 10 ∧
    ((0 : ℚ) * (2/10) + (0 : ℚ) * (3/10) + (1/10 : ℚ) * (3/10)
      + max 0 (50 - (0 : ℚ) * (3/10)) * (2/10)) = 1003/100 ∧
    (enhanceScores ⟨0, 0, "unknown", 0⟩ (1/10) ⟨"low", 0⟩).mania_total ≠
      ((0 : ℚ) * (2/10) + (0 : ℚ) * (3/10) + (1/10 : ℚ) * (3/10)
        + max 0 (50 - (0 : ℚ) * (3/10)) * (2/10)) := by
  have hmax : max (0 : ℚ) (50 - (0 : ℚ) * (3/10)) = 50 := by
    rw [max_eq_right] <;> norm_num
  have hform : ((0 : ℚ) * (2/10) + (0 : ℚ) * (3/10) + (1/10 : ℚ) * (3/10)
      + max 0 (50 - (0 : ℚ) * (3/10)) * (2/10)) = 1003/100 := by
    rw [hmax]; norm_num
  have hstored : (enhanceScores ⟨0, 0, "unknown", 0⟩ (1/10) ⟨"low", 0⟩).mania_total = 10 := by
    show pyRound1 ((0 : ℚ) * (2/10) + (0 : ℚ) * (3/10) + (1/10 : ℚ) * (3/10)
      + max 0 (50 + -((0 : ℚ) * (3/10))) * (2/10)) = 10
    have : ((0 : ℚ) * (2/10) + (0 : ℚ) * (3/10) + (1/10 : ℚ) * (3/10)
        + max 0 (50 + -((0 : ℚ) * (3/10))) * (2/10)) = 1003/100 := by
      rw [show (50 + -((0 : ℚ) * (3/10))) = 50 - (0 : ℚ) * (3/10) by ring, hmax]
      norm_num
    rw [this]
    unfold pyRound1
    rw [show (10 : ℚ) * (1003/100) = 1003/10 by norm_num, round_eq]
    norm_num [Int.floor_eq_iff]
  refine ⟨hstored, hform, ?_⟩
  rw [hstored, hform]
  norm_num

theorem scoreDesc_trans (a b c : SolanaProject)
    (hab : (decide (b.total_score ≤ a.total_score)) = true)
    (hbc : (decide (c.total_score ≤ b.total_score)) = true) :
    (decide (c.total_score ≤ a.total_score)) = true := by
  simp only [decide_eq_true_eq] at *
  exact le_trans hbc hab

theorem scoreDesc_total (a b : SolanaProject) :
    ((decide (b.total_score ≤ a.total_score)) || (decide (a.total_score ≤ b.total_score))) = true := by
  simp only [Bool.or_eq_true, decide_eq_true_eq]
  exact le_total b.total_score a.total_score

/-- C3 (amended): the mania composite stored as `mania_total` is the
ONE-DECIMAL ROUNDING of
`smart_money*0.2 + holder_quality*0.3 + social_velocity*0.3 +
max(0, 50 - bot_score*0.3)*0.2`; each candidate's total score is updated to
the one-decimal rounding of `0.8*primary + 0.2*mania_total`; and the
candidate set is re-sorted by updated score descending, as a permutation of
the updated list, with ties keeping their original relative order (stable
sort). -/
theorem mania_blend_sort_spec (smR : SmartMoneyResult) (v : ℚ) (botR : BotResult)
    (em : SolanaProject → ℚ) (l : List SolanaProject) :
    (enhanceScores smR v botR).mania_total =
      pyRound1 ((smR.smart_money_score : ℚ) * (2/10) + (smR.holder_quality : ℚ) * (3/10)
        + v * (3/10) + max 0 (50 - (botR.bot_score : ℚ) * (3/10)) * (2/10)) ∧
    (∀ p, (updateManiaScore em p).total_score
        = pyRound1 (p.total_score * (8/10) + em p * (2/10))) ∧
    (runStep3 em l).Perm (l.map (updateManiaScore em)) ∧
    (runStep3 em l).Pairwise (fun a b => b.total_score ≤ a.total_score) ∧
    (∀ a b, [a, b].Sublist (l.map (updateManiaScore em)) → b.total_score ≤ a.total_score →
      [a, b].Sublist (runStep3 em l)) := by
  refine ⟨?_, ?_, ?_, ?_, ?_⟩
  · show pyRound1 _ = pyRound1 _
    congr 1
    ring_nf
  · intro p; rfl
  · exact List.mergeSort_perm _ _
  · have h := List.sorted_mergeSort scoreDesc_trans scoreDesc_total
      (l.map (updateManiaScore em))
    exact h.imp (fun hab => by simpa using hab)
  · intro a b hsub hle
    exact List.pair_sublist_mergeSort scoreDesc_trans scoreDesc_total
      (by simpa using hle) hsub

/-- Witness for C3 (amended): two equal-score candidates keep their order
through Step 3. -/
theorem mania_blend_sort_spec_witness :
    [⟨"A", "a", "a", pyRound1 ((50 : ℚ) * (8/10) + 0 * (2/10)), 0, 0⟩,
     ⟨"B", "b", "b", pyRound1 ((50 : ℚ) * (8/10) + 0 * (2/10)), 0, 0⟩].Sublist
      (runStep3 (fun _ => 0)
        [⟨"A", "a", "a", 50, 0, 0⟩, ⟨"B", "b", "b", 50, 0, 0⟩]) := by
  have h := (mania_blend_sort_spec ⟨0, 0, "unknown", 0⟩ 0 ⟨"low", 0⟩ (fun _ => 0)
    [⟨"A", "a", "a", 50, 0, 0⟩, ⟨"B", "b", "b", 50, 0, 0⟩]).2.2.2.2
    ⟨"A", "a", "a", pyRound1 ((50 : ℚ) * (8/10) + 0 * (2/10)), 0, 0⟩
    ⟨"B", "b", "b", pyRound1 ((50 : ℚ) * (8/10) + 0 * (2/10)), 0, 0⟩
    (by
      have hmap : (List.map (updateManiaScore fun _ => (0 : ℚ))
          [⟨"A", "a", "a", 50, 0, 0⟩, ⟨"B", "b", "b", 50, 0, 0⟩]) =
          [⟨"A", "a", "a", pyRound1 ((50 : ℚ) * (8/10) + 0 * (2/10)), 0, 0⟩,
           ⟨"B", "b", "b", pyRound1 ((50 : ℚ) * (8/10) + 0 * (2/10)), 0, 0⟩] := rfl
      rw [hmap])
    le_rfl
  exact h

/-!
## StateManager (src/src/state.py)

The notified map (a JSON object keyed by token address) is an association
list with dict semantics: `upsert` replaces the value in place when the
key is present and appends otherwise, so insertion order and key
uniqueness behave like a Python dict.  `datetime.now(timezone.utc)` is a
rational timestamp parameter `t` (one instant per call, matching a single
evaluation cycle).  Durations: 24 hours = 86400 s, 7 days = 604800 s.
Each method is a state transformer `StateManager → StateManager × output`
(or a plain new state for the writers), mirroring the mutation of `self`.
-/

/-- A notified-map entry `{symbol, name, score, last_notified}`. -/
structure NotifRecord where
  symbol : String
  name : String
  score : ℚ
  last_notified : ℚ
deriving DecidableEq

/-- Python `dict[key]` read returning `None` when absent: first (unique)
entry with the key. -/
def lookupKey {α : Type} (m : List (String × α)) (k : String) : Option α :=
  (m.find? (fun kv => decide (kv.1 = k))).map (·.2)

/-- Python `dict[key] = value`: replace in place when present, else append. -/
def upsert {α : Type} (m : List (String × α)) (k : String) (v : α) :
    List (String × α) :=
  if m.any (fun kv => decide (kv.1 = k)) then
    m.map (fun kv => if kv.1 = k then (k, v) else kv)
  else m ++ [(k, v)]

/-- Dict invariant: at most one entry per key. -/
def keysNodup {α : Type} (m : List (String × α)) : Prop :=
  (m.map Prod.fst).Nodup

theorem lookupKey_cons {α : Type} (a : String × α) (m : List (String × α)) (k : String) :
    lookupKey (a :: m) k = if a.1 = k then some a.2 else lookupKey m k := by
  by_cases h : a.1 = k
  · simp [lookupKey, h]
  · simp [lookupKey, h]

theorem lookupKey_eq_none {α : Type} (m : List (String × α)) (k : String) :
    lookupKey m k = none ↔ k ∉ m.map Prod.fst := by
  induction m with
  | nil => simp [lookupKey]
  | cons a m ih =>
    rw [lookupKey_cons]
    by_cases h : a.1 = k
    · simp [h]
    · simp [h, ih, Ne.symm h]

theorem any_key_iff {α : Type} (m : List (String × α)) (k : String) :
    (m.any (fun kv => decide (kv.1 = k))) = true ↔ k ∈ m.map Prod.fst := by
  simp [List.any_eq_true]

theorem lookupKey_mapReplace_self {α : Type} (m : List (String × α)) (k : String) (v : α)
    (h : k ∈ m.map Prod.fst) :
    lookupKey (m.map (fun kv => if kv.1 = k then (k, v) else kv)) k = some v := by
  induction m with
  | nil => simp at h
  | cons a m ih =>
    by_cases hk : a.1 = k
    · simp only [List.map_cons, if_pos hk]
      rw [lookupKey_cons, if_pos rfl]
    · simp only [List.map_cons, if_neg hk]
      rw [lookupKey_cons, if_neg hk]
      apply ih
      simp only [List.map_cons, List.mem_cons] at h
      rcases h with h | h
      · exact absurd h.symm hk
      · exact h

theorem lookupKey_mapReplace_ne {α : Type} (m : List (String × α)) (k : String) (v : α)
    (k' : String) (h : k' ≠ k) :
    lookupKey (m.map (fun kv => if kv.1 = k then (k, v) else kv)) k' = lookupKey m k' := by
  induction m with
  | nil => rfl
  | cons a m ih =>
    by_cases hk : a.1 = k
    · simp only [List.map_cons, if_pos hk]
      rw [lookupKey_cons, lookupKey_cons, if_neg (fun he => h he.symm),
        if_neg (fun he => h (hk ▸ he).symm), ih]
    · simp only [List.map_cons, if_neg hk]
      rw [lookupKey_cons, lookupKey_cons, ih]

theorem lookupKey_append_single_self {α : Type} (m : List (String × α)) (k : String) (v : α)
    (h : k ∉ m.map Prod.fst) :
    lookupKey (m ++ [(k, v)]) k = some v := by
  induction m with
  | nil => rw [List.nil_append, lookupKey_cons, if_pos rfl]
  | cons a m ih =>
    simp only [List.map_cons, List.mem_cons] at h
    push_neg at h
    rw [List.cons_append, lookupKey_cons, if_neg (fun he => h.1 he.symm)]
    exact ih h.2

theorem lookupKey_append_single_ne {α : Type} (m : List (String × α)) (k : String) (v : α)
    (k' : String) (h : k' ≠ k) :
    lookupKey (m ++ [(k, v)]) k' = lookupKey m k' := by
  induction m with
  | nil =>
    rw [List.nil_append, lookupKey_cons, if_neg (fun he => h he.symm)]
  | cons a m ih =>
    rw [List.cons_append, lookupKey_cons, lookupKey_cons, ih]

theorem lookupKey_upsert_self {α : Type} (m : List (String × α)) (k : String) (v : α) :
    lookupKey (upsert m k v) k = some v := by
  unfold upsert
  split_ifs with ha
  · exact lookupKey_mapReplace_self m k v ((any_key_iff m k).mp ha)
  · refine lookupKey_append_single_self m k v ?_
    intro hm
    exact ha ((any_key_iff m k).mpr hm)

theorem lookupKey_upsert_ne {α : Type} (m : List (String × α)) (k : String) (v : α)
    (k' : String) (h : k' ≠ k) : lookupKey (upsert m k v) k' = lookupKey m k' := by
  unfold upsert
  split_ifs with ha
  · exact lookupKey_mapReplace_ne m k v k' h
  · exact lookupKey_append_single_ne m k v k' h

theorem keys_upsert_of_mem {α : Type} (m : List (String × α)) (k : String) (v : α)
    (h : k ∈ m.map Prod.fst) :
    (upsert m k v).map Prod.fst = m.map Prod.fst := by
  unfold upsert
  rw [if_pos ((any_key_iff m k).mpr h), List.map_map]
  apply List.map_congr_left
  intro a _
  by_cases hk : a.1 = k
  · simp [Function.comp, hk]
  · simp [Function.comp, hk]

theorem keys_upsert_of_not_mem {α : Type} (m : List (String × α)) (k : String) (v : α)
    (h : k ∉ m.map Prod.fst) :
    (upsert m k v).map Prod.fst = m.map Prod.fst ++ [k] := by
  unfold upsert
  rw [if_neg (fun ha => h ((any_key_iff m k).mp ha)), List.map_append]
  rfl

theorem keysNodup_upsert {α : Type} (m : List (String × α)) (k : String) (v : α)
    (h : keysNodup m) : keysNodup (upsert m k v) := by
  unfold keysNodup at *
  by_cases hk : k ∈ m.map Prod.fst
  · rw [keys_upsert_of_mem m k v hk]
    exact h
  · rw [keys_upsert_of_not_mem m k v hk]
    simp [List.nodup_append, h, hk]

/-- One `top` entry of a scan record. -/
structure ScanTopEntry where
  symbol : String
  name : String
  address : String
  score : ℚ
  liquidity_usd : ℚ
  volume_24h_usd : ℚ

/-- One scan-history record `{timestamp, count, top}`. -/
structure ScanRecord where
  timestamp : ℚ
  count : ℕ
  top : List ScanTopEntry

/-- The persistent state of `StateManager`: the notified map
(`state["notified"]`) and the scan history (`history["scans"]`). -/
structure StateManager where
  notified : List (String × NotifRecord)
  scans : List ScanRecord

/-- The record written for one candidate by `mark_notified`. -/
def mkNotifRecord (t : ℚ) (p : SolanaProject) : NotifRecord :=
  { symbol := p.symbol, name := p.name, score := p.total_score, last_notified := t }

/-- The upsert loop `for p in projects: self.state["notified"][...] = ...`
with per-candidate value `f p`. -/
def foldUpsert {α : Type} (f : SolanaProject → α) (ps : List SolanaProject)
    (m : List (String × α)) : List (String × α) :=
  ps.foldl (fun acc p => upsert acc p.token_address (f p)) m

/-- `_cleanup_old_entries`: keep exactly the records strictly younger than
7 days (`last_notified > now - 7 days`). -/
def cleanupOldEntries (t : ℚ) (m : List (String × NotifRecord)) :
    List (String × NotifRecord) :=
  m.filter (fun kv => decide (t - 604800 < kv.2.last_notified))

/-- `StateManager.mark_notified`: upsert a record per candidate at the
current instant, then run the retention sweep, (then persist). -/
def mark_notified (s : StateManager) (t : ℚ) (ps : List SolanaProject) : StateManager :=
  { s with notified := cleanupOldEntries t (foldUpsert (mkNotifRecord t) ps s.notified) }

/-- The per-candidate keep test of `filter_new`: skip exactly when a
record exists and was notified strictly less than 24 hours ago. -/
def keepNew (s : StateManager) (t : ℚ) (p : SolanaProject) : Bool :=
  match lookupKey s.notified p.token_address with
  | some r => !(decide (t - r.last_notified < 86400))
  | none => true

/-- `StateManager.filter_new` (read-only: returns the state unchanged). -/
def filter_new (s : StateManager) (t : ℚ) (ps : List SolanaProject) :
    StateManager × List SolanaProject :=
  (s, ps.filter (keepNew s t))

/-- One `{prev, diff}` entry of the score-change map. -/
structure ScoreChange where
  prev : Option ℚ
  diff : Option ℚ
deriving DecidableEq

/-- The change entry computed for one candidate (a stored record always
carries a `score` key in this model, matching `mark_notified`). -/
def scoreChangeFor (s : StateManager) (p : SolanaProject) : ScoreChange :=
  match lookupKey s.notified p.token_address with
  | some r => { prev := some r.score, diff := some (pyRound1 (p.total_score - r.score)) }
  | none => { prev := none, diff := none }

/-- `StateManager.get_score_changes` (read-only: returns the state
unchanged together with the dict of per-address changes). -/
def get_score_changes (s : StateManager) (ps : List SolanaProject) :
    StateManager × List (String × ScoreChange) :=
  (s, foldUpsert (scoreChangeFor s) ps [])

/-- `StateManager.save_scan`: append a snapshot, keep the most recent 100. -/
def save_scan (s : StateManager) (t : ℚ) (ps : List SolanaProject) : StateManager :=
  let record : ScanRecord :=
    { timestamp := t, count := ps.length,
      top := ps.map (fun p =>
        { symbol := p.symbol, name := p.name, address := p.token_address,
          score := p.total_score, liquidity_usd := p.liquidity_usd,
          volume_24h_usd := p.volume_24h_usd }) }
  let scans' := s.scans ++ [record]
  { s with scans := if 100 < scans'.length then scans'.drop (scans'.length - 100) else scans' }

theorem lookupKey_foldUpsert_not_mem {α : Type} (f : SolanaProject → α)
    (ps : List SolanaProject) (m : List (String × α)) (k : String)
    (h : k ∉ ps.map (·.token_address)) :
    lookupKey (foldUpsert f ps m) k = lookupKey m k := by
  induction ps generalizing m with
  | nil => rfl
  | cons p ps ih =>
    simp only [List.map_cons, List.mem_cons] at h
    push_neg at h
    show lookupKey (foldUpsert f ps (upsert m p.token_address (f p))) k = lookupKey m k
    rw [ih _ h.2, lookupKey_upsert_ne _ _ _ _ h.1]

theorem lookupKey_foldUpsert_mem {α : Type} (f : SolanaProject → α)
    (ps : List SolanaProject) (m : List (String × α)) (k : String)
    (h : k ∈ ps.map (·.token_address)) :
    ∃ p, p ∈ ps ∧ p.token_address = k ∧ lookupKey (foldUpsert f ps m) k = some (f p) := by
  induction ps generalizing m with
  | nil => simp at h
  | cons p ps ih =>
    by_cases hk : k ∈ ps.map (·.token_address)
    · obtain ⟨q, hq, hqa, hl⟩ := ih (upsert m p.token_address (f p)) hk
      exact ⟨q, List.mem_cons_of_mem _ hq, hqa, hl⟩
    · have hpk : p.token_address = k := by
        simp only [List.map_cons, List.mem_cons] at h
        rcases h with h | h
        · exact h.symm
        · exact absurd h hk
      refine ⟨p, List.mem_cons_self _ _, hpk, ?_⟩
      show lookupKey (foldUpsert f ps (upsert m p.token_address (f p))) k = some (f p)
      rw [lookupKey_foldUpsert_not_mem f ps _ k hk, hpk, lookupKey_upsert_self]

theorem lookupKey_foldUpsert_nodup {α : Type} (f : SolanaProject → α)
    (ps : List SolanaProject) (m : List (String × α)) (p : SolanaProject)
    (hmem : p ∈ ps) (hnd : (ps.map (·.token_address)).Nodup) :
    lookupKey (foldUpsert f ps m) p.token_address = some (f p) := by
  induction ps generalizing m with
  | nil => simp at hmem
  | cons q ps ih =>
    simp only [List.map_cons, List.nodup_cons] at hnd
    rcases List.mem_cons.mp hmem with hpq | hp
    · subst hpq
      show lookupKey (foldUpsert f ps (upsert m p.token_address (f p))) p.token_address
        = some (f p)
      rw [lookupKey_foldUpsert_not_mem f ps _ _ hnd.1, lookupKey_upsert_self]
    · exact ih _ hp hnd.2

theorem keysNodup_foldUpsert {α : Type} (f : SolanaProject → α)
    (ps : List SolanaProject) (m : List (String × α)) (h : keysNodup m) :
    keysNodup (foldUpsert f ps m) := by
  induction ps generalizing m with
  | nil => exact h
  | cons p ps ih => exact ih _ (keysNodup_upsert _ _ _ h)

theorem keysNodup_filter {α : Type} (m : List (String × α))
    (q : String × α → Bool) (h : keysNodup m) : keysNodup (m.filter q) := by
  unfold keysNodup at *
  exact h.sublist ((List.filter_sublist m).map Prod.fst)

theorem lookupKey_filter_keep {α : Type} (m : List (String × α)) (k : String) (r : α)
    (q : String × α → Bool) (hl : lookupKey m k = some r) (hq : q (k, r) = true) :
    lookupKey (m.filter q) k = some r := by
  induction m with
  | nil => simp [lookupKey] at hl
  | cons a m ih =>
    rw [lookupKey_cons] at hl
    by_cases ha : a.1 = k
    · rw [if_pos ha] at hl
      have hak : a = (k, r) := by
        cases a
        simp only at ha
        simp only [Option.some.injEq] at hl
        simp [ha, hl]
      rw [List.filter_cons, hak, if_pos (by exact hq)]
      rw [lookupKey_cons, if_pos rfl]
    · rw [if_neg ha] at hl
      rw [List.filter_cons]
      split_ifs with hqa
      · rw [lookupKey_cons, if_neg ha]
        exact ih hl
      · exact ih hl

theorem lookupKey_filter_drop {α : Type} (m : List (String × α)) (k : String) (r : α)
    (q : String × α → Bool) (hn : keysNodup m) (hl : lookupKey m k = some r)
    (hq : q (k, r) = false) : lookupKey (m.filter q) k = none := by
  induction m with
  | nil => simp [lookupKey] at hl
  | cons a m ih =>
    unfold keysNodup at hn
    simp only [List.map_cons, List.nodup_cons] at hn
    rw [lookupKey_cons] at hl
    by_cases ha : a.1 = k
    · rw [if_pos ha] at hl
      have hak : a = (k, r) := by
        cases a
        simp only at ha
        simp only [Option.some.injEq] at hl
        simp [ha, hl]
      rw [List.filter_cons, hak, if_neg (by simp [hq])]
      rw [lookupKey_eq_none]
      intro hmem
      apply hn.1
      rw [ha]
      exact ((List.filter_sublist m).map Prod.fst).subset hmem
    · rw [if_neg ha] at hl
      rw [List.filter_cons]
      split_ifs with hqa
      · rw [lookupKey_cons, if_neg ha]
        exact ih hn.2 hl
      · exact ih hn.2 hl

theorem keepNew_congr (s : StateManager) (t : ℚ) (q p : SolanaProject)
    (h : q.token_address = p.token_address) : keepNew s t q = keepNew s t p := by
  unfold keepNew
  rw [h]

theorem keepNew_false_iff (s : StateManager) (t : ℚ) (p : SolanaProject) :
    keepNew s t p = false ↔
      ∃ r, lookupKey s.notified p.token_address = some r ∧ t - r.last_notified < 86400 := by
  unfold keepNew
  cases hl : lookupKey s.notified p.token_address with
  | none => simp
  | some r => simp

/-- C2: `filter_new` then `mark_notified` on the survivors then
`filter_new` again on the same candidate list (all at one instant, inside
the 24-hour window) returns an empty list; and `filter_new` is exactly the
order-preserving filter that drops a candidate iff its stored record is
younger than 24 hours. -/
theorem dedup_suppression_spec (s : StateManager) (t : ℚ) (ps : List SolanaProject) :
    (filter_new (mark_notified s t (filter_new s t ps).2) t ps).2 = [] ∧
    (filter_new s t ps).2 = ps.filter (keepNew s t) ∧
    ((filter_new s t ps).2).Sublist ps ∧
    (∀ p, keepNew s t p = false ↔
      ∃ r, lookupKey s.notified p.token_address = some r ∧ t - r.last_notified < 86400) := by
  refine ⟨?_, rfl, List.filter_sublist ps, fun p => keepNew_false_iff s t p⟩
  show ps.filter (keepNew (mark_notified s t (ps.filter (keepNew s t))) t) = []
  rw [List.filter_eq_nil_iff]
  intro p hp
  suffices hk : keepNew (mark_notified s t (ps.filter (keepNew s t))) t p = false by
    simp [hk]
  cases hks : keepNew s t p with
  | false =>
    obtain ⟨r, hr, hfresh⟩ := (keepNew_false_iff s t p).mp hks
    have haddr : p.token_address ∉ (ps.filter (keepNew s t)).map (·.token_address) := by
      intro hmem
      obtain ⟨q, hq, hqa⟩ := List.mem_map.mp hmem
      have hqt : keepNew s t q = true := List.of_mem_filter hq
      rw [keepNew_congr s t q p hqa, hks] at hqt
      exact Bool.false_ne_true hqt
    have hfold : lookupKey (foldUpsert (mkNotifRecord t) (ps.filter (keepNew s t))
        s.notified) p.token_address = some r := by
      rw [lookupKey_foldUpsert_not_mem _ _ _ _ haddr]
      exact hr
    have hclean : lookupKey (mark_notified s t (ps.filter (keepNew s t))).notified
        p.token_address = some r := by
      refine lookupKey_filter_keep _ _ _ _ hfold ?_
      simp only [decide_eq_true_eq]
      linarith
    simp [keepNew, hclean, hfresh]
  | true =>
    have hpl : p ∈ ps.filter (keepNew s t) := List.mem_filter.mpr ⟨hp, hks⟩
    have haddr : p.token_address ∈ (ps.filter (keepNew s t)).map (·.token_address) :=
      List.mem_map_of_mem _ hpl
    obtain ⟨q, hq, hqa, hl⟩ :=
      lookupKey_foldUpsert_mem (mkNotifRecord t) (ps.filter (keepNew s t)) s.notified
        p.token_address haddr
    have hclean : lookupKey (mark_notified s t (ps.filter (keepNew s t))).notified
        p.token_address = some (mkNotifRecord t q) := by
      refine lookupKey_filter_keep _ _ _ _ hl ?_
      simp only [mkNotifRecord, decide_eq_true_eq]
      linarith
    have hfresh : t - (mkNotifRecord t q).last_notified < 86400 := by
      simp only [mkNotifRecord, sub_self]
      norm_num
    simp [keepNew, hclean, hfresh]

/-- C6: every `mark_notified` runs the 7-day retention sweep: after the
write, a record whose timestamp is exactly 7 days + 1 second old is
purged while one exactly 6 days 23 hours old survives (for addresses not
re-notified in this call); every candidate written in this call gets
timestamp `t` (age is measured from the most recent update); and the
notified map keeps at most one record per token address. -/
theorem retention_sweep_spec (s : StateManager) (t : ℚ) (ps : List SolanaProject) :
    (keysNodup s.notified → keysNodup (mark_notified s t ps).notified) ∧
    (∀ k r, keysNodup s.notified → lookupKey s.notified k = some r →
      r.last_notified = t - 604801 → k ∉ ps.map (·.token_address) →
      lookupKey (mark_notified s t ps).notified k = none) ∧
    (∀ k r, lookupKey s.notified k = some r →
      r.last_notified = t - 601200 → k ∉ ps.map (·.token_address) →
      lookupKey (mark_notified s t ps).notified k = some r) ∧
    (∀ p, p ∈ ps →
      ∃ r, lookupKey (mark_notified s t ps).notified p.token_address = some r ∧
        r.last_notified = t) := by
  refine ⟨?_, ?_, ?_, ?_⟩
  · intro h
    exact keysNodup_filter _ _ (keysNodup_foldUpsert _ _ _ h)
  · intro k r hnd hl hage hk
    have hfold : lookupKey (foldUpsert (mkNotifRecord t) ps s.notified) k = some r := by
      rw [lookupKey_foldUpsert_not_mem _ _ _ _ hk]
      exact hl
    refine lookupKey_filter_drop _ _ _ _ (keysNodup_foldUpsert _ _ _ hnd) hfold ?_
    simp only [decide_eq_false_iff_not, not_lt, hage]
    linarith
  · intro k r hl hage hk
    have hfold : lookupKey (foldUpsert (mkNotifRecord t) ps s.notified) k = some r := by
      rw [lookupKey_foldUpsert_not_mem _ _ _ _ hk]
      exact hl
    refine lookupKey_filter_keep _ _ _ _ hfold ?_
    simp only [decide_eq_true_eq, hage]
    linarith
  · intro p hp
    have haddr : p.token_address ∈ ps.map (·.token_address) := List.mem_map_of_mem _ hp
    obtain ⟨q, hq, hqa, hl⟩ :=
      lookupKey_foldUpsert_mem (mkNotifRecord t) ps s.notified p.token_address haddr
    refine ⟨mkNotifRecord t q, ?_, rfl⟩
    refine lookupKey_filter_keep _ _ _ _ hl ?_
    simp only [mkNotifRecord, decide_eq_true_eq]
    linarith

/-- Witness for C6 at a concrete store: at t = 1000000, the record aged
exactly 7 days + 1 second (timestamp 395199) is purged, the one aged
exactly 6 days 23 hours (timestamp 398800) survives, the freshly written
candidate gets timestamp t, and key uniqueness is preserved. -/
theorem retention_sweep_spec_witness :
    keysNodup (mark_notified
      ⟨[("old7", ⟨"O", "o", 40, 395199⟩), ("ok", ⟨"K", "k", 50, 398800⟩)], []⟩
      1000000 [⟨"A", "a", "a", 60, 0, 0⟩]).notified ∧
    lookupKey (mark_notified
      ⟨[("old7", ⟨"O", "o", 40, 395199⟩), ("ok", ⟨"K", "k", 50, 398800⟩)], []⟩
      1000000 [⟨"A", "a", "a", 60, 0, 0⟩]).notified "old7" = none ∧
    lookupKey (mark_notified
      ⟨[("old7", ⟨"O", "o", 40, 395199⟩), ("ok", ⟨"K", "k", 50, 398800⟩)], []⟩
      1000000 [⟨"A", "a", "a", 60, 0, 0⟩]).notified "ok" = some ⟨"K", "k", 50, 398800⟩ ∧
    (∃ r, lookupKey (mark_notified
      ⟨[("old7", ⟨"O", "o", 40, 395199⟩), ("ok", ⟨"K", "k", 50, 398800⟩)], []⟩
      1000000 [⟨"A", "a", "a", 60, 0, 0⟩]).notified "A" = some r ∧
      r.last_notified = 1000000) := by
  have h := retention_sweep_spec
    ⟨[("old7", ⟨"O", "o", 40, 395199⟩), ("ok", ⟨"K", "k", 50, 398800⟩)], []⟩
    1000000 [⟨"A", "a", "a", 60, 0, 0⟩]
  refine ⟨h.1 (by unfold keysNodup; decide), ?_, ?_, h.2.2.2 _ (List.mem_singleton.mpr rfl)⟩
  · refine h.2.1 "old7" ⟨"O", "o", 40, 395199⟩ (by unfold keysNodup; decide) rfl (by norm_num)
      (by decide)
  · refine h.2.2.1 "ok" ⟨"K", "k", 50, 398800⟩ rfl (by norm_num) (by decide)

/-- C10: `filter_new` and `get_score_changes` are read-only — both return
the store unchanged (only `mark_notified` and `save_scan` rebuild it); and
`get_score_changes`, run before any filtering, reports the stored previous
score and the rounded delta for every listed candidate with a record (in
particular a still-suppressed one: no freshness condition is consulted),
and `{prev := none, diff := none}` for candidates without a record. -/
theorem readonly_queries_spec (s : StateManager) (t : ℚ) (ps : List SolanaProject) :
    (filter_new s t ps).1 = s ∧
    (get_score_changes s ps).1 = s ∧
    (∀ p r, p ∈ ps → (ps.map (·.token_address)).Nodup →
      lookupKey s.notified p.token_address = some r →
      lookupKey (get_score_changes s ps).2 p.token_address =
        some ⟨some r.score, some (pyRound1 (p.total_score - r.score))⟩) ∧
    (∀ p, p ∈ ps → (ps.map (·.token_address)).Nodup →
      lookupKey s.notified p.token_address = none →
      lookupKey (get_score_changes s ps).2 p.token_address = some ⟨none, none⟩) := by
  refine ⟨rfl, rfl, ?_, ?_⟩
  · intro p r hp hnd hl
    have h := lookupKey_foldUpsert_nodup (scoreChangeFor s) ps [] p hp hnd
    rw [show (get_score_changes s ps).2 = foldUpsert (scoreChangeFor s) ps [] from rfl, h]
    unfold scoreChangeFor
    rw [hl]
  · intro p hp hnd hl
    have h := lookupKey_foldUpsert_nodup (scoreChangeFor s) ps [] p hp hnd
    rw [show (get_score_changes s ps).2 = foldUpsert (scoreChangeFor s) ps [] from rfl, h]
    unfold scoreChangeFor
    rw [hl]

/-- Witness for C10: a store holding address "A" at score 40; candidates
"A" (re-scored 55, still suppressed at t = 0 since its record is fresh)
and "B" (no record). -/
theorem readonly_queries_spec_witness :
    (filter_new ⟨[("A", ⟨"A", "a", 40, 0⟩)], []⟩ 0
      [⟨"A", "a", "a", 55, 0, 0⟩, ⟨"B", "b", "b", 70, 0, 0⟩]).1 =
      ⟨[("A", ⟨"A", "a", 40, 0⟩)], []⟩ ∧
    (get_score_changes ⟨[("A", ⟨"A", "a", 40, 0⟩)], []⟩
      [⟨"A", "a", "a", 55, 0, 0⟩, ⟨"B", "b", "b", 70, 0, 0⟩]).1 =
      ⟨[("A", ⟨"A", "a", 40, 0⟩)], []⟩ ∧
    lookupKey (get_score_changes ⟨[("A", ⟨"A", "a", 40, 0⟩)], []⟩
      [⟨"A", "a", "a", 55, 0, 0⟩, ⟨"B", "b", "b", 70, 0, 0⟩]).2 "A" =
      some ⟨some 40, some (pyRound1 ((55 : ℚ) - 40))⟩ ∧
    lookupKey (get_score_changes ⟨[("A", ⟨"A", "a", 40, 0⟩)], []⟩
      [⟨"A", "a", "a", 55, 0, 0⟩, ⟨"B", "b", "b", 70, 0, 0⟩]).2 "B" =
      some ⟨none, none⟩ := by
  have h := readonly_queries_spec ⟨[("A", ⟨"A", "a", 40, 0⟩)], []⟩ 0
    [⟨"A", "a", "a", 55, 0, 0⟩, ⟨"B", "b", "b", 70, 0, 0⟩]
  refine ⟨h.1, h.2.1, ?_, ?_⟩
  · exact h.2.2.1 ⟨"A", "a", "a", 55, 0, 0⟩ ⟨"A", "a", 40, 0⟩
      (by simp) (by decide) rfl
  · exact h.2.2.2 ⟨"B", "b", "b", 70, 0, 0⟩
      (by simp) (by decide) rfl
